import Mathlib

/-!
Verification development for the localizador backend.

The repository serves nearest points-of-sale (PDVs) for a product. Its core
pieces, embedded below from the JavaScript source:

* the haversine distance helpers (app.js calculateDistance / server.js
  haversineKm), embedded over the real numbers;
* the address normalizer (app.js buildAddressFromRow);
* the product-id candidate-variant rule of the /pdvs/proximos/produto
  handlers (leading 9 <-> 0 swap on 5-digit ids);
* the geocode cache with in-flight request coalescing (app.js
  geocodeAddress over geocodeCache / inflightGeocoding), embedded as an
  event-loop transition system: the synchronous prefix of a resolve call
  and the completion of a pending provider call are the atomic steps;
* the two nearest-store result pipelines: the server.js handler (filter by
  product, map to distance-or-null entries, sort, take 20) and the app.js
  handler (stream the join table, resolve coordinates through the geocode
  cache, keep only resolvable stores, sort).

Numbers carried by data records are embedded as rationals; the
trigonometric distance computation itself is embedded over the reals, and
the result pipelines are parametric in the distance function.
-/

namespace Localizador

/-! ### DistanceEngine -/

/-- JavaScript Math.atan2 on finite inputs (the only signed-zero nuance,
atan2(-0, 0), has no counterpart in the reals). -/
noncomputable def jsAtan2 (y x : ℝ) : ℝ :=
  if 0 < x then Real.arctan (y / x)
  else if x < 0 then
    (if 0 ≤ y then Real.arctan (y / x) + Real.pi else Real.arctan (y / x) - Real.pi)
  else
    (if 0 < y then Real.pi / 2 else if y < 0 then -(Real.pi / 2) else 0)

/-- app.js calculateDistance: haversine distance on a sphere of radius 6371 km. -/
noncomputable def calculateDistance (lat1 lon1 lat2 lon2 : ℝ) : ℝ :=
  let R : ℝ := 6371
  let dLat := (lat2 - lat1) * Real.pi / 180
  let dLon := (lon2 - lon1) * Real.pi / 180
  let a := Real.sin (dLat / 2) ^ 2 +
    Real.cos (lat1 * Real.pi / 180) * Real.cos (lat2 * Real.pi / 180) *
      Real.sin (dLon / 2) ^ 2
  let c := 2 * jsAtan2 (Real.sqrt a) (Real.sqrt (1 - a))
  R * c

/-- JavaScript Number.prototype.toFixed(2) read back as a number: round to
the nearest multiple of 1/100, ties toward the larger value. -/
noncomputable def toFixed2 (x : ℝ) : ℝ := ((⌊x * 100 + 1 / 2⌋ : ℤ) : ℝ) / 100

/-- server.js haversineKm: same haversine formula, rounded to two decimals. -/
noncomputable def haversineKm (lat1 lon1 lat2 lon2 : ℝ) : ℝ :=
  let toRad : ℝ → ℝ := fun d => d * Real.pi / 180
  let R : ℝ := 6371
  let dLat := toRad (lat2 - lat1)
  let dLon := toRad (lon2 - lon1)
  let a := Real.sin (dLat / 2) ^ 2 +
    Real.cos (toRad lat1) * Real.cos (toRad lat2) * Real.sin (dLon / 2) ^ 2
  let c := 2 * jsAtan2 (Real.sqrt a) (Real.sqrt (1 - a))
  toFixed2 (R * c)

/-! ### String helpers -/

/-- JavaScript String.prototype.trim: drop leading and trailing whitespace.
(Stated on the character list so it evaluates in the kernel; Lean's own
String.trim is implemented on Substring positions and does not reduce.) -/
def trimStr (s : String) : String :=
  String.mk (((s.toList.dropWhile Char.isWhitespace).reverse.dropWhile
    Char.isWhitespace).reverse)

/-- JavaScript String.prototype.startsWith. -/
def startsWithStr (s p : String) : Bool :=
  s.toList.take p.toList.length == p.toList

/-! ### AddressNormalizer -/

/-- app.js helper norm: String(s).trim(). -/
def normStr (s : String) : String := trimStr s

/-- app.js helper onlyDigits(s, max): strip non-digits, then keep the first
max characters (max = 0 stands for the absent-argument call, which keeps
everything). -/
def onlyDigits (s : String) (max : Nat) : String :=
  if max = 0 then String.mk (s.toList.filter Char.isDigit)
  else String.mk ((s.toList.filter Char.isDigit).take max)

/-- A raw PDV record's address fields, per the pdvs_final.csv layout
id;nome;rua;bairro;cidade;cep;estado. -/
structure PdvRow where
  rua : String
  bairro : String
  cidade : String
  estado : String
  cep : String

/-- app.js buildAddressFromRow: push each non-empty trimmed field, then the
state with ", Brasil" (or "Brasil" alone), then the digits-only postal code,
and join with ", ". -/
def buildAddressFromRow (row : PdvRow) : String :=
  let rua := normStr row.rua
  let bairro := normStr row.bairro
  let cidade := normStr row.cidade
  let uf := normStr row.estado
  let cep := onlyDigits row.cep 8
  let parts : List String :=
    (if rua ≠ "" then [rua] else []) ++
    (if bairro ≠ "" then [bairro] else []) ++
    (if cidade ≠ "" then [cidade] else []) ++
    (if uf ≠ "" then [uf ++ ", Brasil"] else ["Brasil"]) ++
    (if cep ≠ "" then [cep] else [])
  String.intercalate ", " parts

/-- The address component list as the specification words it: street,
neighborhood, city filtered to the non-empty ones, then the state/country
component, then the postal code when non-empty. -/
def specAddressParts (row : PdvRow) : List String :=
  (([normStr row.rua, normStr row.bairro, normStr row.cidade]).filter (fun s => s ≠ "")) ++
  [if normStr row.estado ≠ "" then normStr row.estado ++ ", Brasil" else "Brasil"] ++
  (if onlyDigits row.cep 8 ≠ "" then [onlyDigits row.cep 8] else [])

/-! ### Candidate product-id variants (/pdvs/proximos/produto) -/

/-- The regular expression test ^\d{5}$ from the handler. -/
def isFiveDigits (s : String) : Bool :=
  s.length == 5 && s.toList.all Char.isDigit

/-- The candidate set built by the /pdvs/proximos/produto handler: the given
id, plus — only for 5-digit ids — the sibling obtained by swapping a leading
'9' for '0' or a leading '0' for '9'. The source collects these in a Set in
insertion order; each added sibling differs from the given id in its first
character, so the list below has the same members and order. -/
def productCandidates (productIdRaw : String) : List String :=
  let c0 := [productIdRaw]
  let c1 :=
    if isFiveDigits productIdRaw && startsWithStr productIdRaw "9" then
      c0 ++ ["0" ++ productIdRaw.drop 1]
    else c0
  if isFiveDigits productIdRaw && startsWithStr productIdRaw "0" then
    c1 ++ ["9" ++ productIdRaw.drop 1]
  else c1

/-! ### GeocodeCache (app.js geocodeAddress / geocodeCache / inflightGeocoding)

The server is single-process and event-driven: a resolve call runs
synchronously from its entry up to the point where the outbound provider
request has been issued and the in-flight entry recorded (the async IIFE in
the source executes up to its first await before geocodeAddress returns),
and the rest of the async body runs atomically when the provider call
completes. Those two blocks are the atomic steps of the model. -/

structure Coord where
  lat : ℚ
  lon : ℚ
deriving DecidableEq

/-- How a provider call can come back: a geometry (success), an HTTP error
status (the !r.ok branch), a response without results/geometry, or a thrown
exception (network failure); the last three all produce null. -/
inductive GeoOutcome where
  | success : Coord → GeoOutcome
  | httpNotOk : GeoOutcome
  | noGeometry : GeoOutcome
  | thrown : GeoOutcome
deriving DecidableEq

/-- The module state: the in-memory geocodeCache, the persisted
geocode_cache.json contents, the inflightGeocoding map (at most one entry
per key, so membership suffices), a per-key outbound-call counter (the
instrumentation the spec's coalescing property asks for), and whether
OPENCAGE_KEY is configured. -/
structure GeoState where
  cache : String → Option Coord
  persisted : String → Option Coord
  inflight : String → Bool
  calls : String → Nat
  hasKey : Bool

/-- What the synchronous prefix of geocodeAddress hands back to its caller:
an immediate value (cache hit, empty address, or missing credential), the
already-pending shared promise (coalescing), or a newly issued provider
call whose promise the caller awaits. -/
inductive StartResult where
  | done : Option Coord → StartResult
  | joined : StartResult
  | issued : StartResult
deriving DecidableEq

/-- The synchronous prefix of app.js geocodeAddress: trim; empty address →
null; cache hit → cached pair; pending in-flight entry → join it; missing
OPENCAGE_KEY → null; otherwise issue the provider call and record the
in-flight entry. -/
def resolveStart (s : GeoState) (address : String) : GeoState × StartResult :=
  let addr := trimStr address
  if addr = "" then (s, StartResult.done none)
  else
    match s.cache addr with
    | some c => (s, StartResult.done (some c))
    | none =>
      if s.inflight addr then (s, StartResult.joined)
      else if s.hasKey = false then (s, StartResult.done none)
      else
        ({ s with
            inflight := fun k => if k = addr then true else s.inflight k,
            calls := fun k => if k = addr then s.calls k + 1 else s.calls k },
          StartResult.issued)

/-- Completion of the pending provider call for addr: on success write the
pair into geocodeCache and flush the whole cache to geocode_cache.json; on
any other outcome change nothing; in every case (the finally block) delete
the in-flight entry. The second component is the value the shared promise
settles to — the result every coalesced caller observes. -/
def resolveFinish (s : GeoState) (addr : String) (o : GeoOutcome) :
    GeoState × Option Coord :=
  match o with
  | GeoOutcome.success c =>
    let cache' := fun k => if k = addr then some c else s.cache k
    ({ s with
        cache := cache',
        persisted := cache',
        inflight := fun k => if k = addr then false else s.inflight k },
      some c)
  | _ =>
    ({ s with inflight := fun k => if k = addr then false else s.inflight k }, none)

/-- An atomic event of the event loop: the synchronous prefix of a resolve
call, or the completion of the pending provider call for a key. -/
inductive GeoEvent where
  | start : String → GeoEvent
  | finish : String → GeoOutcome → GeoEvent

/-- One scheduler step. A provider response only exists for a pending
request, so a finish event for a key with no in-flight entry is a no-op. -/
def geoStep (s : GeoState) (e : GeoEvent) : GeoState :=
  match e with
  | GeoEvent.start a => (resolveStart s a).1
  | GeoEvent.finish a o => if s.inflight a then (resolveFinish s a o).1 else s

/-- Run a list of events. -/
def geoExec (s : GeoState) : List GeoEvent → GeoState
  | [] => s
  | e :: t => geoExec (geoStep s e) t

/-- Number of provider-completion events for key A in a trace. -/
def finishesFor (A : String) : List GeoEvent → Nat
  | [] => 0
  | GeoEvent.finish a _ :: t => (if a = A then 1 else 0) + finishesFor A t
  | GeoEvent.start _ :: t => finishesFor A t

/-- States where a pending in-flight key is never already cached. Every
process-start state (in-flight map empty) satisfies it, and it is preserved
by every step. -/
def cacheInv (s : GeoState) : Prop :=
  ∀ k, s.inflight k = true → s.cache k = none

/-! ### StoreResolver pipelines -/

/-- A PDV record as loadPdvsMap (app.js) builds it: coordinates start out
undefined and are filled in through the geocode cache. -/
structure Pdv where
  id : String
  nome : String
  cep : String
  endereco : String
  cidade : String
  latitude : Option ℚ
  longitude : Option ℚ
deriving DecidableEq

/-- A row of the pdv_produtos join table (produto_id;pdv_id). -/
structure JoinRow where
  produto_id : String
  pdv_id : String
deriving DecidableEq

/-- app.js ensureCoords: keep already-finite coordinates, otherwise resolve
the record's address. geo is the outcome of geocodeAddress during the
request: deterministic, since a success is cached and a failure re-asks the
same provider. The source mutates the record in place; as the resolved
value for an address never changes within a request, the pure reading
below agrees with it. -/
def ensureCoords (geo : String → Option Coord) (pdv : Pdv) : Option (ℚ × ℚ) :=
  match pdv.latitude, pdv.longitude with
  | some la, some lo => some (la, lo)
  | _, _ => (geo pdv.endereco).map (fun c => (c.lat, c.lon))

/-- The bucket collected by the app.js /pdvs/proximos/produto handler while
streaming the join table: for each row whose produto_id is among the
candidate variants, look the store up and keep it when known. One push per
matching row — no deduplication. -/
def appBucket (pdvMap : String → Option Pdv) (rows : List JoinRow)
    (productIdRaw : String) : List Pdv :=
  rows.filterMap (fun row =>
    if (productCandidates productIdRaw).contains row.produto_id then
      pdvMap row.pdv_id
    else none)

/-- A result entry of the app.js handler: only stores whose coordinates
resolved are pushed, so the distance is always a number here. -/
structure AppEntry where
  id : String
  nome : String
  cep : String
  endereco : String
  latitude : ℚ
  longitude : ℚ
  distancia_km : ℚ
deriving DecidableEq

def appEntry (dist : ℚ → ℚ → ℚ → ℚ → ℚ) (userLat userLon : ℚ)
    (pdv : Pdv) (q : ℚ × ℚ) : AppEntry :=
  { id := pdv.id, nome := pdv.nome, cep := pdv.cep, endereco := pdv.endereco,
    latitude := q.1, longitude := q.2,
    distancia_km := dist userLat userLon q.1 q.2 }

/-- The per-store loop of the app.js handler: resolve coordinates through
the cache, skip the store when resolution fails, otherwise push an entry.
The pipeline is parametric in the distance function (the trigonometric
haversine is analysed separately over the reals). -/
def appProdutoEntries (geo : String → Option Coord) (dist : ℚ → ℚ → ℚ → ℚ → ℚ)
    (userLat userLon : ℚ) (bucket : List Pdv) : List AppEntry :=
  bucket.filterMap (fun pdv =>
    (ensureCoords geo pdv).map (appEntry dist userLat userLon pdv))

/-- The full app.js /pdvs/proximos/produto result: collect, resolve, sort
ascending by distancia_km. (This variant applies no truncation.) The JS
engine's stable sort is embedded as a stable insertion sort. -/
def appProdutoOut (pdvMap : String → Option Pdv) (rows : List JoinRow)
    (productIdRaw : String) (geo : String → Option Coord)
    (dist : ℚ → ℚ → ℚ → ℚ → ℚ) (userLat userLon : ℚ) : List AppEntry :=
  (appProdutoEntries geo dist userLat userLon
    (appBucket pdvMap rows productIdRaw)).insertionSort
      (fun a b => a.distancia_km ≤ b.distancia_km)

/-- A store record as server.js loadStores builds it (latitude/longitude
read from the CSV; NaN — absent or unparsable — modelled as none), with the
product ids attached from the join-table mapping. -/
structure Store where
  id : String
  nome : String
  cep : String
  endereco : String
  latitude : Option ℚ
  longitude : Option ℚ
  products : List String
deriving DecidableEq

/-- A result entry of the server.js handler: the store spread together with
distancia_km, which is null when the store has no finite coordinates. -/
structure ServerEntry where
  store : Store
  distancia_km : Option ℚ
deriving DecidableEq

/-- Sort key realised by the server.js comparator: null sorts after every
number. For two null entries the JS comparator answers 1 both ways, leaving
their relative order unspecified; the embedding totalises that one case by
treating two nulls as tied. -/
def distKey (e : ServerEntry) : WithTop ℚ :=
  match e.distancia_km with
  | some d => (d : WithTop ℚ)
  | none => ⊤

/-- The server.js /pdvs/proximos/produto handler: filter the stores to those
carrying the product, attach a distance (or null without finite
coordinates), sort ascending with nulls last, and keep the first 20. -/
def serverProdutoOut (stores : List Store) (dist : ℚ → ℚ → ℚ → ℚ → ℚ)
    (productId : String) (lat lon : ℚ) : List ServerEntry :=
  (((stores.filter (fun s => s.products.contains productId)).map (fun s =>
      { store := s,
        distancia_km :=
          match s.latitude, s.longitude with
          | some la, some lo => some (dist lat lon la lo)
          | _, _ => none : ServerEntry })).insertionSort
    (fun a b => distKey a ≤ distKey b)).take 20

instance : IsTotal ServerEntry (fun a b => distKey a ≤ distKey b) :=
  ⟨fun _ _ => le_total _ _⟩

instance : IsTrans ServerEntry (fun a b => distKey a ≤ distKey b) :=
  ⟨fun _ _ _ => le_trans⟩

instance : IsTotal AppEntry (fun a b => a.distancia_km ≤ b.distancia_km) :=
  ⟨fun _ _ => le_total _ _⟩

instance : IsTrans AppEntry (fun a b => a.distancia_km ≤ b.distancia_km) :=
  ⟨fun _ _ _ => le_trans⟩

/-! ### Concrete instances used by witnesses -/

/-- A fully populated raw store record. -/
def demoRow : PdvRow :=
  { rua := " Rua Sete de Setembro ", bairro := "Centro", cidade := "Itajai",
    estado := "SC", cep := "88301-200" }

/-- A store linked (only) to product id 91123 in the demo join table. -/
def cexPdv : Pdv :=
  { id := "S1", nome := "Loja", cep := "88301200", endereco := "Rua A",
    cidade := "Itajai", latitude := some 0, longitude := some 0 }

def cexPdvMap : String → Option Pdv :=
  fun k => if k = "S1" then some cexPdv else none

def cexRows : List JoinRow := [{ produto_id := "91123", pdv_id := "S1" }]

/-- A state with a pending in-flight request for "Rua A" and nothing cached. -/
def pendState : GeoState :=
  { cache := fun _ => none, persisted := fun _ => none,
    inflight := fun k => k == "Rua A", calls := fun _ => 0, hasKey := true }

/-- A process-start state: empty cache, no in-flight requests, no calls yet. -/
def freshState : GeoState :=
  { cache := fun _ => none, persisted := fun _ => none,
    inflight := fun _ => false, calls := fun _ => 0, hasKey := true }

/-- A state holding one resolved key. -/
def cachedState : GeoState :=
  { cache := fun k => if k = "Rua A" then some { lat := 1, lon := 2 } else none,
    persisted := fun k => if k = "Rua A" then some { lat := 1, lon := 2 } else none,
    inflight := fun _ => false, calls := fun _ => 0, hasKey := true }

/-- A constant distance function for concrete evaluation. -/
def distConst : ℚ → ℚ → ℚ → ℚ → ℚ := fun _ _ _ _ => 1

/-- A store carrying product P1 with known coordinates. -/
def storeW : Store :=
  { id := "S", nome := "L", cep := "", endereco := "", latitude := some 1,
    longitude := some 2, products := ["P1"] }

/-- 21 qualifying stores — more than the truncation limit. -/
def storesW : List Store := List.replicate 21 storeW

/-- A store with absent coordinates whose address will not geocode. -/
def c6PdvBad : Pdv :=
  { id := "S1", nome := "A", cep := "", endereco := "Addr1", cidade := "",
    latitude := none, longitude := none }

/-- A store with known coordinates. -/
def c6PdvGood : Pdv :=
  { id := "S2", nome := "B", cep := "", endereco := "Addr2", cidade := "",
    latitude := some 3, longitude := some 4 }

def c6Map : String → Option Pdv :=
  fun k => if k = "S1" then some c6PdvBad else if k = "S2" then some c6PdvGood else none

/-- Both stores are linked to the queried product P1. -/
def c6Rows : List JoinRow :=
  [{ produto_id := "P1", pdv_id := "S1" }, { produto_id := "P1", pdv_id := "S2" }]

/-- A provider that resolves nothing. -/
def c6Geo : String → Option Coord := fun _ => none

def c6Entry : AppEntry := appEntry distConst 0 0 c6PdvGood (3, 4)

/-- A join table linking the same store to the same product twice. -/
def c7Rows : List JoinRow :=
  [{ produto_id := "P1", pdv_id := "S1" }, { produto_id := "P1", pdv_id := "S1" }]

theorem sinHalfSq_symm (u v : ℝ) :
    Real.sin ((u - v) * Real.pi / 180 / 2) ^ 2 =
      Real.sin ((v - u) * Real.pi / 180 / 2) ^ 2 := by
  have h : (u - v) * Real.pi / 180 / 2 = -((v - u) * Real.pi / 180 / 2) := by ring
  rw [h, Real.sin_neg, neg_sq]

theorem toFixed2_zero : toFixed2 0 = 0 := by
  unfold toFixed2
  norm_num

/-- C8: the haversine distance (both the raw app.js version and the
two-decimal server.js version) is symmetric in its two coordinate pairs and
vanishes on equal pairs. -/
theorem distanceKm_symm_and_self_zero :
    (∀ lat1 lon1 lat2 lon2 : ℝ,
      calculateDistance lat1 lon1 lat2 lon2 = calculateDistance lat2 lon2 lat1 lon1) ∧
    (∀ lat lon : ℝ, calculateDistance lat lon lat lon = 0) ∧
    (∀ lat1 lon1 lat2 lon2 : ℝ,
      haversineKm lat1 lon1 lat2 lon2 = haversineKm lat2 lon2 lat1 lon1) ∧
    (∀ lat lon : ℝ, haversineKm lat lon lat lon = 0) := by
  have hsymm : ∀ lat1 lon1 lat2 lon2 : ℝ,
      calculateDistance lat1 lon1 lat2 lon2 = calculateDistance lat2 lon2 lat1 lon1 := by
    intro lat1 lon1 lat2 lon2
    simp only [calculateDistance]
    rw [sinHalfSq_symm lat2 lat1, sinHalfSq_symm lon2 lon1,
      mul_comm (Real.cos (lat1 * Real.pi / 180)) (Real.cos (lat2 * Real.pi / 180))]
  have hzero : ∀ lat lon : ℝ, calculateDistance lat lon lat lon = 0 := by
    intro lat lon
    simp only [calculateDistance, sub_self, zero_mul, zero_div, Real.sin_zero]
    norm_num [jsAtan2, Real.sqrt_one, Real.arctan_zero]
  refine ⟨hsymm, hzero, ?_, ?_⟩
  · intro lat1 lon1 lat2 lon2
    simp only [haversineKm]
    rw [sinHalfSq_symm lat2 lat1, sinHalfSq_symm lon2 lon1,
      mul_comm (Real.cos (lat1 * Real.pi / 180)) (Real.cos (lat2 * Real.pi / 180))]
  · intro lat lon
    simp only [haversineKm, sub_self, zero_mul, zero_div, Real.sin_zero]
    norm_num [jsAtan2, Real.sqrt_one, Real.arctan_zero, toFixed2]

theorem append_brasil_ne_empty (s : String) : s ++ ", Brasil" ≠ "" := by
  intro h
  have hlen : s.length + (", Brasil" : String).length = 0 := by
    rw [← String.length_append, h]
    rfl
  have h8 : (", Brasil" : String).length = 8 := rfl
  omega

/-- C9: the normalized address is exactly the comma-join of: the non-empty
trimmed street, neighborhood and city in that order, then the state with
", Brasil" (or "Brasil" alone when no state), then — as final component —
the digits-only postal code when non-empty; no empty segment is ever
emitted. -/
theorem buildAddress_components :
    ∀ row : PdvRow,
      buildAddressFromRow row = String.intercalate ", " (specAddressParts row) ∧
      (∀ p ∈ specAddressParts row, p ≠ "") ∧
      (onlyDigits row.cep 8 ≠ "" →
        (specAddressParts row).getLast? = some (onlyDigits row.cep 8)) := by
  intro row
  refine ⟨?_, ?_, ?_⟩
  · by_cases h1 : normStr row.rua = "" <;> by_cases h2 : normStr row.bairro = "" <;>
      by_cases h3 : normStr row.cidade = "" <;>
      by_cases h4 : normStr row.estado = "" <;>
      by_cases h5 : onlyDigits row.cep 8 = "" <;>
      simp [buildAddressFromRow, specAddressParts, h1, h2, h3, h4, h5]
  · intro p hp
    simp only [specAddressParts, List.mem_append] at hp
    rcases hp with (hp | hp) | hp
    · simpa using (List.mem_filter.mp hp).2
    · rcases List.mem_singleton.mp hp with rfl
      by_cases huf : normStr row.estado = ""
      · simp only [huf]
        decide
      · rw [if_pos huf]
        exact append_brasil_ne_empty _
    · by_cases hcep : onlyDigits row.cep 8 = ""
      · simp [hcep] at hp
      · simp only [hcep, ne_eq, not_false_eq_true, if_pos, List.mem_singleton] at hp
        exact hp ▸ hcep
  · intro hcep
    simp [specAddressParts, hcep, List.getLast?_concat]

/-- C9 witness: on a fully populated record the postal code is the final
component. -/
theorem buildAddress_components_witness :
    onlyDigits demoRow.cep 8 ≠ "" ∧
    (specAddressParts demoRow).getLast? = some (onlyDigits demoRow.cep 8) :=
  ⟨by decide, (buildAddress_components demoRow).2.2 (by decide)⟩

/-- C4 counterexample: the claim's example is wrong about the code — querying
"09123" does not match stores linked to "91123": the sibling of "09123" is
"99123" (only the leading character is swapped), and the streaming resolver
accordingly collects nothing for a store linked only to "91123". -/
theorem candidates_example_false :
    ("91123" ∈ productCandidates "09123") = False ∧
    appBucket cexPdvMap cexRows "09123" = [] ∧
    appBucket cexPdvMap cexRows "91123" = [cexPdv] :=
  ⟨by decide, by rfl, by rfl⟩

/-- C4 as amended: for exactly-5-digit ids the resolver searches the given id
plus the sibling with the leading '9' swapped for '0' or the leading '0'
swapped for '9' (so "09123" also matches "99123" and vice versa); for any
other id only the given id is searched. -/
theorem candidates_swap_leading_digit :
    (∀ raw pid : String,
      pid ∈ productCandidates raw ↔
        (pid = raw ∨
          (isFiveDigits raw = true ∧ startsWithStr raw "9" = true ∧
            pid = "0" ++ raw.drop 1) ∨
          (isFiveDigits raw = true ∧ startsWithStr raw "0" = true ∧
            pid = "9" ++ raw.drop 1))) ∧
    (∀ raw : String, isFiveDigits raw = false → productCandidates raw = [raw]) ∧
    productCandidates "09123" = ["09123", "99123"] ∧
    productCandidates "99123" = ["99123", "09123"] := by
  refine ⟨?_, ?_, by rfl, by rfl⟩
  · intro raw pid
    by_cases h5 : isFiveDigits raw = true
    · by_cases h9 : startsWithStr raw "9" = true
      · by_cases h0 : startsWithStr raw "0" = true
        · simp [productCandidates, h5, h9, h0, or_assoc]
        · simp [productCandidates, h5, h9, h0]
      · by_cases h0 : startsWithStr raw "0" = true
        · simp [productCandidates, h5, h9, h0]
        · simp [productCandidates, h5, h9, h0]
    · simp [productCandidates, h5]
  · intro raw h5
    simp [productCandidates, h5]

/-- C4 witness: a non-5-digit id is searched alone. -/
theorem candidates_swap_leading_digit_witness :
    isFiveDigits "1234" = false ∧ productCandidates "1234" = ["1234"] :=
  ⟨by rfl, candidates_swap_leading_digit.2.1 "1234" (by rfl)⟩

/-! ### Branch lemmas for the geocode cache -/

theorem resolveStart_empty (s : GeoState) (address : String)
    (h : trimStr address = "") :
    resolveStart s address = (s, StartResult.done none) := by
  unfold resolveStart
  simp [h]

theorem resolveStart_hit (s : GeoState) (address : String) (c : Coord)
    (hne : trimStr address ≠ "") (hc : s.cache (trimStr address) = some c) :
    resolveStart s address = (s, StartResult.done (some c)) := by
  unfold resolveStart
  simp [hne, hc]

theorem resolveStart_joined (s : GeoState) (address : String)
    (hne : trimStr address ≠ "") (hc : s.cache (trimStr address) = none)
    (hi : s.inflight (trimStr address) = true) :
    resolveStart s address = (s, StartResult.joined) := by
  unfold resolveStart
  simp [hne, hc, hi]

theorem resolveStart_nokey (s : GeoState) (address : String)
    (hne : trimStr address ≠ "") (hc : s.cache (trimStr address) = none)
    (hi : s.inflight (trimStr address) = false) (hk : s.hasKey = false) :
    resolveStart s address = (s, StartResult.done none) := by
  unfold resolveStart
  simp [hne, hc, hi, hk]

theorem resolveStart_issued (s : GeoState) (address : String)
    (hne : trimStr address ≠ "") (hc : s.cache (trimStr address) = none)
    (hi : s.inflight (trimStr address) = false) (hk : s.hasKey = true) :
    resolveStart s address =
      ({ s with
          inflight := fun k => if k = trimStr address then true else s.inflight k,
          calls := fun k => if k = trimStr address then s.calls k + 1 else s.calls k },
        StartResult.issued) := by
  unfold resolveStart
  simp [hne, hc, hi, hk]

/-- Every branch of the synchronous prefix either leaves the state untouched
or is the call-issuing branch, whose enabling conditions and effects are
listed. -/
theorem resolveStart_cases (s : GeoState) (address : String) :
    (resolveStart s address).1 = s ∨
    (trimStr address ≠ "" ∧ s.cache (trimStr address) = none ∧
      s.inflight (trimStr address) = false ∧ s.hasKey = true ∧
      resolveStart s address =
        ({ s with
            inflight := fun k => if k = trimStr address then true else s.inflight k,
            calls := fun k => if k = trimStr address then s.calls k + 1 else s.calls k },
          StartResult.issued)) := by
  by_cases hne : trimStr address = ""
  · left
    rw [resolveStart_empty s address hne]
  · cases hc : s.cache (trimStr address) with
    | some c =>
      left
      rw [resolveStart_hit s address c hne hc]
    | none =>
      cases hi : s.inflight (trimStr address) with
      | true =>
        left
        rw [resolveStart_joined s address hne hc hi]
      | false =>
        cases hk : s.hasKey with
        | false =>
          left
          rw [resolveStart_nokey s address hne hc hi hk]
        | true =>
          right
          refine ⟨hne, rfl, rfl, rfl, ?_⟩
          have h := resolveStart_issued s address hne hc hi hk
          rw [hk] at h
          exact h

theorem resolveFinish_calls (s : GeoState) (addr : String) (o : GeoOutcome) :
    ((resolveFinish s addr o).1).calls = s.calls := by
  cases o <;> rfl

theorem resolveFinish_hasKey (s : GeoState) (addr : String) (o : GeoOutcome) :
    ((resolveFinish s addr o).1).hasKey = s.hasKey := by
  cases o <;> rfl

theorem resolveFinish_inflight_self (s : GeoState) (addr : String) (o : GeoOutcome) :
    ((resolveFinish s addr o).1).inflight addr = false := by
  cases o <;> simp [resolveFinish]

theorem resolveFinish_inflight_other (s : GeoState) (addr k : String) (o : GeoOutcome)
    (h : k ≠ addr) :
    ((resolveFinish s addr o).1).inflight k = s.inflight k := by
  cases o <;> simp [resolveFinish, h]

theorem resolveFinish_cache_other (s : GeoState) (addr k : String) (o : GeoOutcome)
    (h : k ≠ addr) :
    ((resolveFinish s addr o).1).cache k = s.cache k := by
  cases o <;> simp [resolveFinish, h]

theorem resolveFinish_fail (s : GeoState) (addr : String) (o : GeoOutcome)
    (h : ∀ c, o ≠ GeoOutcome.success c) :
    resolveFinish s addr o =
      ({ s with inflight := fun k => if k = addr then false else s.inflight k }, none) := by
  cases o with
  | success c => exact absurd rfl (h c)
  | httpNotOk => rfl
  | noGeometry => rfl
  | thrown => rfl

theorem geoExec_cons (s : GeoState) (e : GeoEvent) (t : List GeoEvent) :
    geoExec s (e :: t) = geoExec (geoStep s e) t := rfl

/-- One step preserves the call-count invariant for a key A, as long as the
step is not a provider completion for A. -/
theorem calls_invariant_step (s : GeoState) (e : GeoEvent) (A : String)
    (hc : s.calls A ≤ 1) (hi : s.inflight A = false → s.calls A = 0)
    (hfin : ∀ o, e ≠ GeoEvent.finish A o) :
    (geoStep s e).calls A ≤ 1 ∧
      ((geoStep s e).inflight A = false → (geoStep s e).calls A = 0) := by
  cases e with
  | start b =>
    rcases resolveStart_cases s b with hsame | ⟨hne, hcache, hinf, hkey, hres⟩
    · simp only [geoStep, hsame]
      exact ⟨hc, hi⟩
    · simp only [geoStep, hres]
      by_cases hAb : A = trimStr b
      · subst hAb
        have h0 := hi hinf
        simp [h0]
      · simp only [if_neg hAb]
        exact ⟨hc, hi⟩
  | finish b o =>
    have hbA : A ≠ b := by
      intro h
      exact hfin o (by rw [h])
    cases hib : s.inflight b with
    | true =>
      have hstep : geoStep s (GeoEvent.finish b o) = (resolveFinish s b o).1 := by
        simp [geoStep, hib]
      rw [hstep, resolveFinish_calls, resolveFinish_inflight_other s b A o hbA]
      exact ⟨hc, hi⟩
    | false =>
      have hstep : geoStep s (GeoEvent.finish b o) = s := by
        simp [geoStep, hib]
      rw [hstep]
      exact ⟨hc, hi⟩

/-- Along any trace with no provider completion for A, the invariant holds. -/
theorem calls_invariant_exec (A : String) :
    ∀ (t : List GeoEvent) (s : GeoState),
      s.calls A ≤ 1 → (s.inflight A = false → s.calls A = 0) →
      finishesFor A t = 0 → (geoExec s t).calls A ≤ 1 := by
  intro t
  induction t with
  | nil =>
    intro s hc _ _
    exact hc
  | cons e t ih =>
    intro s hc hi hfin
    have hsplit : (∀ o, e ≠ GeoEvent.finish A o) ∧ finishesFor A t = 0 := by
      cases e with
      | start b =>
        refine ⟨fun o h => GeoEvent.noConfusion h, ?_⟩
        simpa [finishesFor] using hfin
      | finish b o =>
        by_cases hbA : b = A
        · exfalso
          subst hbA
          simp [finishesFor] at hfin
        · constructor
          · intro o' h
            injection h with h1 h2
            exact hbA h1
          · simpa [finishesFor, hbA] using hfin
    obtain ⟨hne, ht⟩ := hsplit
    obtain ⟨hc', hi'⟩ := calls_invariant_step s e A hc hi hne
    rw [geoExec_cons]
    exact ih (geoStep s e) hc' hi' ht

/-- C1: concurrent resolve calls for the same unresolved address coalesce on
a single in-flight provider call: a resolve arriving while a request for the
key is pending joins it without issuing anything; along any interleaving
with no completion for the key, at most one outbound call is issued; the
in-flight entry is removed on completion under every outcome; and every
coalesced caller observes the one value the shared promise settles to. -/
theorem geocode_inflight_coalescing :
    (∀ (s : GeoState) (address : String),
      trimStr address ≠ "" → s.cache (trimStr address) = none →
      s.inflight (trimStr address) = true →
      resolveStart s address = (s, StartResult.joined)) ∧
    (∀ (s : GeoState) (A : String) (t : List GeoEvent),
      s.calls A = 0 → finishesFor A t = 0 →
      (geoExec s t).calls A ≤ 1) ∧
    (∀ (s : GeoState) (addr : String) (o : GeoOutcome),
      ((resolveFinish s addr o).1).inflight addr = false) ∧
    (∀ (s : GeoState) (addr : String) (o : GeoOutcome),
      (resolveFinish s addr o).2 =
        match o with
        | GeoOutcome.success c => some c
        | _ => none) := by
  refine ⟨resolveStart_joined, ?_, resolveFinish_inflight_self, ?_⟩
  · intro s A t hc hfin
    exact calls_invariant_exec A t s (by omega) (fun _ => hc) hfin
  · intro s addr o
    cases o <;> rfl

/-- C1 witness: a resolve for a pending key joins it, and two back-to-back
resolve calls for a fresh key issue at most one provider call. -/
theorem geocode_inflight_coalescing_witness :
    resolveStart pendState "Rua A" = (pendState, StartResult.joined) ∧
    (geoExec freshState [GeoEvent.start "Rua A", GeoEvent.start "Rua A"]).calls "Rua A" ≤ 1 :=
  ⟨geocode_inflight_coalescing.1 pendState "Rua A" (by decide) (by rfl) (by rfl),
    geocode_inflight_coalescing.2.1 freshState "Rua A"
      [GeoEvent.start "Rua A", GeoEvent.start "Rua A"] (by rfl) (by rfl)⟩

theorem cacheInv_step (s : GeoState) (e : GeoEvent) (hinv : cacheInv s) :
    cacheInv (geoStep s e) := by
  cases e with
  | start b =>
    rcases resolveStart_cases s b with hsame | ⟨hne, hcache, hinf, hkey, hres⟩
    · simpa [geoStep, hsame] using hinv
    · intro k hk
      simp only [geoStep, hres] at hk ⊢
      by_cases hkb : k = trimStr b
      · subst hkb
        exact hcache
      · exact hinv k (by simpa [hkb] using hk)
  | finish b o =>
    cases hib : s.inflight b with
    | false =>
      have hstep : geoStep s (GeoEvent.finish b o) = s := by
        simp [geoStep, hib]
      rw [hstep]
      exact hinv
    | true =>
      have hstep : geoStep s (GeoEvent.finish b o) = (resolveFinish s b o).1 := by
        simp [geoStep, hib]
      rw [hstep]
      intro k hk
      by_cases hkb : k = b
      · subst hkb
        rw [resolveFinish_inflight_self] at hk
        cases hk
      · rw [resolveFinish_inflight_other s b k o hkb] at hk
        rw [resolveFinish_cache_other s b k o hkb]
        exact hinv k hk

theorem cache_some_step (s : GeoState) (e : GeoEvent) (A : String) (c : Coord)
    (hinv : cacheInv s) (hc : s.cache A = some c) :
    (geoStep s e).cache A = some c := by
  cases e with
  | start b =>
    rcases resolveStart_cases s b with hsame | ⟨_, _, _, _, hres⟩
    · rw [show geoStep s (GeoEvent.start b) = (resolveStart s b).1 from rfl, hsame]
      exact hc
    · simp only [geoStep, hres]
      exact hc
  | finish b o =>
    cases hib : s.inflight b with
    | false =>
      have hstep : geoStep s (GeoEvent.finish b o) = s := by
        simp [geoStep, hib]
      rw [hstep]
      exact hc
    | true =>
      have hAb : A ≠ b := by
        intro h
        subst h
        rw [hinv A hib] at hc
        cases hc
      have hstep : geoStep s (GeoEvent.finish b o) = (resolveFinish s b o).1 := by
        simp [geoStep, hib]
      rw [hstep, resolveFinish_cache_other s b A o hAb]
      exact hc

theorem cache_some_exec :
    ∀ (t : List GeoEvent) (s : GeoState) (A : String) (c : Coord),
      cacheInv s → s.cache A = some c → (geoExec s t).cache A = some c := by
  intro t
  induction t with
  | nil =>
    intro s A c _ hc
    exact hc
  | cons e t ih =>
    intro s A c hinv hc
    rw [geoExec_cons]
    exact ih (geoStep s e) A c (cacheInv_step s e hinv) (cache_some_step s e A c hinv hc)

/-- C2: a cached key is answered immediately from the cache with no provider
call and no state change; the invariant that a pending key is never already
cached is preserved by every step; and once a key resolves to a coordinate
pair, no later resolve activity removes or overwrites it — the cache is a
monotone memo. -/
theorem cache_hit_immediate_and_monotone :
    (∀ (s : GeoState) (address : String) (c : Coord),
      trimStr address ≠ "" → s.cache (trimStr address) = some c →
      resolveStart s address = (s, StartResult.done (some c))) ∧
    (∀ (s : GeoState) (e : GeoEvent), cacheInv s → cacheInv (geoStep s e)) ∧
    (∀ (s : GeoState) (t : List GeoEvent) (A : String) (c : Coord),
      cacheInv s → s.cache A = some c → (geoExec s t).cache A = some c) :=
  ⟨resolveStart_hit, cacheInv_step, fun s t => cache_some_exec t s⟩

/-- C2 witness: a cached address is returned as-is, and survives further
resolve activity for other keys. -/
theorem cache_hit_immediate_and_monotone_witness :
    resolveStart cachedState "Rua A" =
      (cachedState, StartResult.done (some { lat := 1, lon := 2 })) ∧
    (geoExec cachedState [GeoEvent.start "Rua B"]).cache "Rua A" =
      some { lat := 1, lon := 2 } :=
  ⟨cache_hit_immediate_and_monotone.1 cachedState "Rua A" { lat := 1, lon := 2 }
      (by decide) (by rfl),
    cache_hit_immediate_and_monotone.2.2 cachedState [GeoEvent.start "Rua B"] "Rua A"
      { lat := 1, lon := 2 } (fun k hk => by cases hk) (by rfl)⟩

/-- C3: a provider failure (HTTP error, empty geometry, exception) settles
the shared promise to null and leaves both the in-memory cache and the
persisted file untouched; a missing credential yields null with no call and
no state change; after a failure the key is immediately retryable — the next
resolve issues a fresh provider call; and only a success writes the pair
into the cache and flushes the whole cache to storage. -/
theorem failure_transient_success_persisted :
    (∀ (s : GeoState) (addr : String) (o : GeoOutcome),
      (∀ c, o ≠ GeoOutcome.success c) →
      (resolveFinish s addr o).2 = none ∧
      ((resolveFinish s addr o).1).cache = s.cache ∧
      ((resolveFinish s addr o).1).persisted = s.persisted) ∧
    (∀ (s : GeoState) (address : String),
      trimStr address ≠ "" → s.cache (trimStr address) = none →
      s.inflight (trimStr address) = false → s.hasKey = false →
      resolveStart s address = (s, StartResult.done none)) ∧
    (∀ (s : GeoState) (address : String) (o : GeoOutcome),
      (∀ c, o ≠ GeoOutcome.success c) →
      trimStr address ≠ "" → s.cache (trimStr address) = none → s.hasKey = true →
      (resolveStart ((resolveFinish s (trimStr address) o).1) address).2 =
        StartResult.issued ∧
      ((resolveStart ((resolveFinish s (trimStr address) o).1) address).1).calls
          (trimStr address) = s.calls (trimStr address) + 1) ∧
    (∀ (s : GeoState) (address : String),
      ((resolveStart s address).1).cache = s.cache ∧
      ((resolveStart s address).1).persisted = s.persisted) ∧
    (∀ (s : GeoState) (addr : String) (c : Coord),
      ((resolveFinish s addr (GeoOutcome.success c)).1).cache addr = some c ∧
      ((resolveFinish s addr (GeoOutcome.success c)).1).persisted =
        ((resolveFinish s addr (GeoOutcome.success c)).1).cache ∧
      (resolveFinish s addr (GeoOutcome.success c)).2 = some c) := by
  refine ⟨?_, resolveStart_nokey, ?_, ?_, ?_⟩
  · intro s addr o h
    rw [resolveFinish_fail s addr o h]
    exact ⟨rfl, rfl, rfl⟩
  · intro s address o hfail hne hc hk
    have h1 : ((resolveFinish s (trimStr address) o).1).cache (trimStr address) = none := by
      rw [resolveFinish_fail s (trimStr address) o hfail]
      exact hc
    have h2 : ((resolveFinish s (trimStr address) o).1).inflight (trimStr address) = false :=
      resolveFinish_inflight_self s (trimStr address) o
    have h3 : ((resolveFinish s (trimStr address) o).1).hasKey = true := by
      rw [resolveFinish_hasKey]
      exact hk
    have hiss := resolveStart_issued _ address hne h1 h2 h3
    constructor
    · rw [hiss]
    · rw [hiss]
      simp only [if_pos rfl]
      rw [resolveFinish_calls]
      simp
  · intro s address
    rcases resolveStart_cases s address with hsame | ⟨_, _, _, _, hres⟩
    · rw [hsame]
      exact ⟨rfl, rfl⟩
    · rw [hres]
      exact ⟨rfl, rfl⟩
  · intro s addr c
    refine ⟨by simp [resolveFinish], rfl, rfl⟩

/-- C3 witness: an HTTP failure for a pending fresh key caches nothing, and
resolving again afterwards issues a new provider call. -/
theorem failure_transient_success_persisted_witness :
    (resolveFinish freshState "Rua A" GeoOutcome.httpNotOk).2 = none ∧
    ((resolveFinish freshState "Rua A" GeoOutcome.httpNotOk).1).cache = freshState.cache ∧
    (resolveStart ((resolveFinish freshState (trimStr "Rua A")
        GeoOutcome.httpNotOk).1) "Rua A").2 = StartResult.issued :=
  ⟨(failure_transient_success_persisted.1 freshState "Rua A" GeoOutcome.httpNotOk
      (fun c h => by cases h)).1,
    (failure_transient_success_persisted.1 freshState "Rua A" GeoOutcome.httpNotOk
      (fun c h => by cases h)).2.1,
    (failure_transient_success_persisted.2.2.1 freshState "Rua A" GeoOutcome.httpNotOk
      (fun c h => by cases h) (by decide) (by rfl) (by rfl)).1⟩

/-- C10: an address that is empty after trimming short-circuits: resolve
returns null immediately, no provider call is issued, and neither the cache
nor the in-flight map changes. -/
theorem empty_address_noop :
    ∀ (s : GeoState) (address : String), trimStr address = "" →
      resolveStart s address = (s, StartResult.done none) :=
  resolveStart_empty

/-- C10 witness: a whitespace-only address is a no-op returning null. -/
theorem empty_address_noop_witness :
    trimStr "   " = "" ∧
    resolveStart freshState "   " = (freshState, StartResult.done none) :=
  ⟨by rfl, empty_address_noop freshState "   " (by rfl)⟩

/-! ### StoreResolver result theorems -/

/-- C5: the server.js nearest-store result is ascending in the distance key
(null distances sort last) and holds min 20 n entries, where n is the number
of qualifying stores: at most 20, exactly 20 when 20 or more qualify, the
full list when fewer. -/
theorem server_results_sorted_top20 :
    ∀ (stores : List Store) (dist : ℚ → ℚ → ℚ → ℚ → ℚ) (productId : String)
      (lat lon : ℚ),
      (serverProdutoOut stores dist productId lat lon).length =
        min 20 (stores.filter (fun s => s.products.contains productId)).length ∧
      (serverProdutoOut stores dist productId lat lon).length ≤ 20 ∧
      (20 ≤ (stores.filter (fun s => s.products.contains productId)).length →
        (serverProdutoOut stores dist productId lat lon).length = 20) ∧
      ((stores.filter (fun s => s.products.contains productId)).length ≤ 20 →
        (serverProdutoOut stores dist productId lat lon).length =
          (stores.filter (fun s => s.products.contains productId)).length) ∧
      List.Pairwise (fun a b => distKey a ≤ distKey b)
        (serverProdutoOut stores dist productId lat lon) := by
  intro stores dist productId lat lon
  have hlen : (serverProdutoOut stores dist productId lat lon).length =
      min 20 (stores.filter (fun s => s.products.contains productId)).length := by
    simp [serverProdutoOut, List.length_take, List.length_insertionSort]
  refine ⟨hlen, ?_, ?_, ?_, ?_⟩
  · rw [hlen]
    exact Nat.min_le_left _ _
  · intro h
    rw [hlen]
    exact min_eq_left h
  · intro h
    rw [hlen]
    exact min_eq_right h
  · have hs := List.sorted_insertionSort (fun a b => distKey a ≤ distKey b)
      ((stores.filter (fun s => s.products.contains productId)).map (fun s =>
        { store := s,
          distancia_km :=
            match s.latitude, s.longitude with
            | some la, some lo => some (dist lat lon la lo)
            | _, _ => none : ServerEntry }))
    exact List.Pairwise.sublist (List.take_sublist _ _) hs

/-- C5 witness: 21 qualifying stores produce exactly 20 entries. -/
theorem server_results_sorted_top20_witness :
    20 ≤ (storesW.filter (fun s => s.products.contains "P1")).length ∧
    (serverProdutoOut storesW distConst "P1" 0 0).length = 20 :=
  ⟨by decide,
    (server_results_sorted_top20 storesW distConst "P1" 0 0).2.2.1 (by decide)⟩

/-- C6: a store linked to the queried product whose coordinates are absent
and whose address fails to geocode contributes no entry at all to the
app.js handler's result — under the assumption (true of the Map the source
builds) that the store table maps each key to a record carrying that id. -/
theorem unresolvable_store_excluded :
    ∀ (pdvMap : String → Option Pdv) (rows : List JoinRow) (raw : String)
      (geo : String → Option Coord) (dist : ℚ → ℚ → ℚ → ℚ → ℚ)
      (userLat userLon : ℚ) (pdv : Pdv),
      (∀ k p, pdvMap k = some p → p.id = k) →
      pdvMap pdv.id = some pdv →
      (pdv.latitude = none ∨ pdv.longitude = none) →
      geo pdv.endereco = none →
      ∀ e ∈ appProdutoOut pdvMap rows raw geo dist userLat userLon,
        e.id ≠ pdv.id := by
  intro pdvMap rows raw geo dist uLat uLon pdv hcoh hpdv hmiss hgeo e he heq
  have hnone : ensureCoords geo pdv = none := by
    cases hlat : pdv.latitude with
    | none => simp [ensureCoords, hlat, hgeo]
    | some la =>
      cases hlon : pdv.longitude with
      | none => simp [ensureCoords, hlat, hlon, hgeo]
      | some lo =>
        exfalso
        rcases hmiss with h | h
        · rw [hlat] at h
          cases h
        · rw [hlon] at h
          cases h
  rw [appProdutoOut, List.mem_insertionSort] at he
  obtain ⟨q, hq, hmap⟩ := List.mem_filterMap.mp he
  obtain ⟨qc, hqc, hfa⟩ := Option.map_eq_some'.mp hmap
  have heid : e.id = q.id := by
    rw [← hfa]
    rfl
  obtain ⟨row, _, hif⟩ := List.mem_filterMap.mp hq
  have hq2 : pdvMap row.pdv_id = some q := by
    by_cases hcond : (productCandidates raw).contains row.produto_id
    · rw [if_pos hcond] at hif
      exact hif
    · rw [if_neg hcond] at hif
      cases hif
  have hqid : q.id = row.pdv_id := hcoh _ _ hq2
  have hqpdv : q = pdv := by
    have h1 : pdvMap q.id = some q := by
      rw [hqid]
      exact hq2
    rw [heid] at heq
    rw [heq, hpdv] at h1
    injection h1 with h2
    exact h2.symm
  rw [hqpdv, hnone] at hqc
  cases hqc

/-- C6 witness: with one unresolvable and one resolvable store both linked
to P1, the result contains the resolvable store's entry and no entry for
the unresolvable one. -/
theorem unresolvable_store_excluded_witness :
    c6Entry ∈ appProdutoOut c6Map c6Rows "P1" c6Geo distConst 0 0 ∧
    c6Entry.id ≠ c6PdvBad.id :=
  ⟨by decide,
    unresolvable_store_excluded c6Map c6Rows "P1" c6Geo distConst 0 0 c6PdvBad
      (fun k p h => by
        by_cases h1 : k = "S1"
        · subst h1
          simp [c6Map] at h
          rw [← h]
          rfl
        · by_cases h2 : k = "S2"
          · subst h2
            simp [c6Map] at h
            rw [← h]
            rfl
          · simp [c6Map, h1, h2] at h)
      (by rfl) (Or.inl rfl) (by rfl) c6Entry (by decide)⟩

/-- C7 counterexample: with the join table linking store S1 to product P1
twice, the app.js streaming resolver returns the same store twice — result
entries are not deduplicated per store. -/
theorem dedup_claim_false :
    (appProdutoOut cexPdvMap c7Rows "P1" c6Geo distConst 0 0).length = 2 ∧
    ((appProdutoOut cexPdvMap c7Rows "P1" c6Geo distConst 0 0).filter
      (fun e => e.id == "S1")).length = 2 := by
  constructor
  · rfl
  · rfl

theorem length_filterMap_eq_countP (f : α → Option β) :
    ∀ l : List α, (l.filterMap f).length = l.countP (fun a => (f a).isSome) := by
  intro l
  induction l with
  | nil => rfl
  | cons a t ih =>
    cases hfa : f a <;>
      simp [List.filterMap_cons, hfa, List.countP_cons, ih]

/-- C7 as amended: the streaming resolver emits one result entry per
matching, resolvable join-table row — so duplicate (productId, storeId) rows
do multiply result entries rather than being collapsed to a distinct set.
(The server.js variant, which filters the store list instead of streaming
the join table, yields each store at most once per query.) -/
theorem entries_per_matching_row :
    ∀ (pdvMap : String → Option Pdv) (rows : List JoinRow) (raw : String)
      (geo : String → Option Coord) (dist : ℚ → ℚ → ℚ → ℚ → ℚ)
      (userLat userLon : ℚ),
      (appProdutoOut pdvMap rows raw geo dist userLat userLon).length =
        rows.countP (fun row =>
          (productCandidates raw).contains row.produto_id &&
          ((pdvMap row.pdv_id).bind (ensureCoords geo)).isSome) := by
  intro pdvMap rows raw geo dist uLat uLon
  rw [appProdutoOut, List.length_insertionSort, appProdutoEntries, appBucket,
    List.filterMap_filterMap, length_filterMap_eq_countP]
  apply List.countP_congr
  intro row _
  by_cases hcond : (productCandidates raw).contains row.produto_id
  · rw [if_pos hcond, hcond, Bool.true_and]
    cases hpd : pdvMap row.pdv_id with
    | none => rfl
    | some p =>
      cases hec : ensureCoords geo p with
      | none => simp [hec]
      | some q => simp [hec]
  · have hfalse : (productCandidates raw).contains row.produto_id = false := by
      simpa using hcond
    rw [if_neg hcond, hfalse, Bool.false_and]
    rfl

end Localizador
